import Mathlib

/-!
Verification of the SEC financial-data lookup tool (src/SEC.py).

This file gives a shallow embedding of the program's core logic:
* a JSON value model (the program consumes parsed JSON from `requests`),
* Python string helpers (`lower`, `upper`, `strip`, substring test),
* the `%Y-%m-%d` date parser (`datetime.strptime`) and day arithmetic,
* `get_ticker_from_company_name`, `get_cik_from_ticker`,
  `get_financial_data` (SEC.py lines 20-141),
* the pandas normalization block (`groupby(...).sum()`, inner `merge`,
  `sort_values`, unit scaling; SEC.py lines 227-260).

Machine integers are modelled as `Nat`/`Int`; the float columns of the
pandas tables as `Rat` (all numeric literals relevant to the claims,
e.g. `1e12`, are integers below `2^53` and hence exact in Python
floats, so `Rat` is faithful).  Fallible Python code (uncaught
exceptions) is modelled with `Except`.
-/

namespace SEC

/-- A parsed JSON value, as produced by `resp.json()`.  Python dicts are
insertion-ordered association lists (SEC responses have unique keys;
lookup returns the first binding).  Numbers are modelled as integers:
every numeric field the program touches (`val`, status codes) is
integral, and no claim does arithmetic on a JSON number. -/
inductive Json where
  | null
  | bool (b : Bool)
  | num (n : Int)
  | str (s : String)
  | arr (xs : List Json)
  | obj (kvs : List (String × Json))

/-- Structural equality of JSON values (Python `==` on parsed JSON). -/
def Json.beq : Json → Json → Bool
  | .null, .null => true
  | .bool a, .bool b => a == b
  | .num a, .num b => a == b
  | .str a, .str b => a == b
  | .arr xs, .arr ys => go xs ys
  | .obj xs, .obj ys => goKV xs ys
  | _, _ => false
where
  go : List Json → List Json → Bool
    | [], [] => true
    | x :: xs, y :: ys => Json.beq x y && go xs ys
    | _, _ => false
  goKV : List (String × Json) → List (String × Json) → Bool
    | [], [] => true
    | (k, v) :: xs, (k2, v2) :: ys => k == k2 && Json.beq v v2 && goKV xs ys
    | _, _ => false

theorem Json.beq_iff : (a b : Json) → (Json.beq a b = true ↔ a = b)
  | .null, .null => by simp [Json.beq]
  | .null, .bool _ | .null, .num _ | .null, .str _ | .null, .arr _ | .null, .obj _ => by simp [Json.beq]
  | .bool _, .null | .bool _, .num _ | .bool _, .str _ | .bool _, .arr _ | .bool _, .obj _ => by simp [Json.beq]
  | .num _, .null | .num _, .bool _ | .num _, .str _ | .num _, .arr _ | .num _, .obj _ => by simp [Json.beq]
  | .str _, .null | .str _, .bool _ | .str _, .num _ | .str _, .arr _ | .str _, .obj _ => by simp [Json.beq]
  | .arr _, .null | .arr _, .bool _ | .arr _, .num _ | .arr _, .str _ | .arr _, .obj _ => by simp [Json.beq]
  | .obj _, .null | .obj _, .bool _ | .obj _, .num _ | .obj _, .str _ | .obj _, .arr _ => by simp [Json.beq]
  | .bool _, .bool _ => by simp [Json.beq]
  | .num _, .num _ => by simp [Json.beq]
  | .str _, .str _ => by simp [Json.beq]
  | .arr xs, .arr ys => by
      simp only [Json.beq]
      rw [go_iff xs ys]
      simp
  | .obj xs, .obj ys => by
      simp only [Json.beq]
      rw [goKV_iff xs ys]
      simp
where
  go_iff : (xs ys : List Json) → (Json.beq.go xs ys = true ↔ xs = ys)
    | [], [] => by simp [Json.beq.go]
    | [], _ :: _ => by simp [Json.beq.go]
    | _ :: _, [] => by simp [Json.beq.go]
    | x :: xs, y :: ys => by
        simp only [Json.beq.go, Bool.and_eq_true]
        rw [Json.beq_iff x y, go_iff xs ys]
        simp
  goKV_iff : (xs ys : List (String × Json)) → (Json.beq.goKV xs ys = true ↔ xs = ys)
    | [], [] => by simp [Json.beq.goKV]
    | [], _ :: _ => by simp [Json.beq.goKV]
    | _ :: _, [] => by simp [Json.beq.goKV]
    | (k, v) :: xs, (k2, v2) :: ys => by
        simp only [Json.beq.goKV, Bool.and_eq_true]
        rw [Json.beq_iff v v2, goKV_iff xs ys]
        simp

instance : DecidableEq Json := fun a b => decidable_of_iff _ (Json.beq_iff a b)

/-! ### Python string primitives

The program only ever feeds ASCII data through `lower`/`upper`/`strip`,
so the basic-latin case maps of `Char.toLower`/`Char.toUpper` model
Python's `str.lower`/`str.upper` faithfully here. -/

/-- Python `str.lower()`. -/
def pyLower (s : String) : String := ⟨s.data.map Char.toLower⟩

/-- Python `str.upper()`. -/
def pyUpper (s : String) : String := ⟨s.data.map Char.toUpper⟩

/-- Python `str.strip()` on the underlying character list: drop leading
and trailing whitespace. -/
def pyStripList (l : List Char) : List Char :=
  (((l.dropWhile Char.isWhitespace).reverse).dropWhile Char.isWhitespace).reverse

/-- Python `str.strip()`. -/
def pyStrip (s : String) : String := ⟨pyStripList s.data⟩

/-- Python's substring test `needle in hay`, on character lists:
`containsList needle hay` is true iff some contiguous run of `hay`
equals `needle`. -/
def containsList (needle : List Char) : List Char → Bool
  | [] => needle.isEmpty
  | c :: rest => needle.isPrefixOf (c :: rest) || containsList needle rest

/-- Python's substring test `needle in hay` for strings. -/
def strContains (needle hay : String) : Bool :=
  containsList needle.data hay.data

/-- The claim-side substring relation: `a` occurs contiguously inside `b`. -/
def SubstringOf (a b : List Char) : Prop := ∃ p s, p ++ a ++ s = b

theorem containsList_iff (needle : List Char) :
    ∀ hay, containsList needle hay = true ↔ SubstringOf needle hay := by
  intro hay
  induction hay with
  | nil =>
    simp only [containsList, SubstringOf, List.isEmpty_iff]
    constructor
    · rintro rfl; exact ⟨[], [], rfl⟩
    · rintro ⟨p, s, h⟩
      rcases List.append_eq_nil.mp (List.append_eq_nil.mp h).1 with ⟨_, h2⟩
      exact h2
  | cons c rest ih =>
    simp only [containsList, Bool.or_eq_true, ih]
    constructor
    · rintro (h | ⟨p, s, rfl⟩)
      · obtain ⟨t, ht⟩ := List.isPrefixOf_iff_prefix.mp h
        exact ⟨[], t, by simpa using ht⟩
      · exact ⟨c :: p, s, rfl⟩
    · rintro ⟨p, s, h⟩
      cases p with
      | nil =>
        left
        rw [List.isPrefixOf_iff_prefix]
        exact ⟨s, by simpa using h⟩
      | cons d p' =>
        right
        rw [List.cons_append, List.cons_append, List.cons.injEq] at h
        exact ⟨p', s, by simpa using h.2⟩

instance (a b : List Char) : Decidable (SubstringOf a b) :=
  decidable_of_iff _ (containsList_iff a b)

/-! ### Dates: `datetime.strptime(s, "%Y-%m-%d")` and day arithmetic -/

/-- Gregorian leap-year rule (as used by Python's `datetime`). -/
def isLeap (y : Nat) : Bool := y % 4 == 0 && (y % 100 != 0 || y % 400 == 0)

/-- Lengths of the twelve months of year `y`. -/
def monthLengths (y : Nat) : List Nat :=
  [31, if isLeap y then 29 else 28, 31, 30, 31, 30, 31, 31, 30, 31, 30, 31]

/-- Number of days in month `m` (1-based) of year `y`. -/
def daysInMonth (y m : Nat) : Nat := (monthLengths y).getD (m - 1) 0

/-- Days of year `y` that precede month `m` (1-based). -/
def daysBeforeMonth (y m : Nat) : Nat := ((monthLengths y).take (m - 1)).sum

/-- Rata-die style day number of the date `(y, m, d)`: the count of days
from a fixed origin, so that `datetime` subtraction `(e - s).days` is
`rata e - rata s`. -/
def rata : Nat × Nat × Nat → Nat
  | (y, m, d) => 365 * (y - 1) + (y - 1) / 4 + (y - 1) / 400 - (y - 1) / 100 + daysBeforeMonth y m + d

/-- Numeric value of a digit string. -/
def digitsToNat (l : List Char) : Nat := l.foldl (fun n c => 10 * n + (c.toNat - 48)) 0

/-- Is `l` a non-empty string of ASCII digits of length at most `k`? -/
def isDigits (l : List Char) (k : Nat) : Bool :=
  !l.isEmpty && l.length ≤ k && l.all Char.isDigit

/-- Split a character list at every dash (`str.split("-")` semantics). -/
def splitDash : List Char → List (List Char)
  | [] => [[]]
  | c :: rest =>
    if c = '-' then [] :: splitDash rest
    else
      match splitDash rest with
      | h :: t => (c :: h) :: t
      | [] => [[c]]

/-- Python `datetime.strptime(s, "%Y-%m-%d")`, returning the
`(year, month, day)` triple, or `none` when parsing raises.  `%Y` demands
exactly four digits, `%m`/`%d` one or two digits with value ranges
1..12 / 1..31 (no value 0), the three components separated by literal
dashes with nothing left over; `datetime` then validates the day against
the month length and requires year >= 1. -/
def parseDate (s : String) : Option (Nat × Nat × Nat) :=
  match splitDash s.data with
  | [ys, ms, ds] =>
    if isDigits ys 4 && ys.length == 4 && isDigits ms 2 && isDigits ds 2 then
      let y := digitsToNat ys
      let m := digitsToNat ms
      let d := digitsToNat ds
      if 1 ≤ y && 1 ≤ m && m ≤ 12 && 1 ≤ d && d ≤ daysInMonth y m then
        some (y, m, d)
      else none
    else none
  | _ => none

/-! ### Identifier Resolver (SEC.py lines 11-75)

The two resolver functions download `company_tickers.json` and scan its
records; the HTTP layer is abstracted by passing the parsed snapshot (a
list of `{ticker, title, cik_str}` records in dict iteration order)
directly, which is how the claims quantify over them. -/

/-- One record of the `company_tickers.json` snapshot. -/
structure TickerRec where
  ticker : String
  title : String
  cik : Nat
  deriving DecidableEq

/-- The hard-coded synonym table (SEC.py lines 11-15). -/
def SYNONYMS : List (String × String) :=
  [("google", "alphabet inc"), ("nvidia", "nvidia corporation")]

/-- The synonym-substitution preamble of `get_ticker_from_company_name`
(SEC.py lines 28-30): if the lower-cased, stripped name is a key of
`SYNONYMS`, replace the whole name by the canonical name. -/
def synonymSubst (company_name : String) : String :=
  let name_lower := pyStrip (pyLower company_name)
  match List.lookup name_lower SYNONYMS with
  | some canonical => canonical
  | none => company_name

/-- `get_ticker_from_company_name` (SEC.py lines 20-49), after the
snapshot has been fetched: collect the ticker of every record whose
upper-cased title contains `company_name.upper().strip()` (post synonym
substitution) as a substring, in snapshot order. -/
def get_ticker_from_company_name (company_name : String) (snapshot : List TickerRec) : List String :=
  let cn := synonymSubst company_name
  let name_upper := pyStrip (pyUpper cn)
  (snapshot.filter (fun info => strContains name_upper (pyUpper info.title))).map
    (fun info => info.ticker)

/-- Python `str(n).zfill(width)` for a natural number `n`: left-pad the
decimal string with zeros to at least `width` characters. -/
def zfill (width : Nat) (s : String) : String :=
  ⟨List.replicate (width - s.length) '0' ++ s.data⟩

/-- `get_cik_from_ticker` (SEC.py lines 54-75), after the snapshot has
been fetched: first record whose upper-cased ticker equals
`ticker.upper().strip()` yields `"CIK" + str(cik_str).zfill(10)`;
otherwise the empty string. -/
def get_cik_from_ticker (ticker : String) (snapshot : List TickerRec) : String :=
  let t_upper := pyStrip (pyUpper ticker)
  match snapshot.find? (fun info => pyUpper info.ticker == t_upper) with
  | some info => "CIK" ++ zfill 10 (Nat.repr info.cik)
  | none => ""

/-- The Company-Name mode input guard (SEC.py lines 180-182): the UI
halts the action iff the entered company name strips to the empty
(falsy) string. -/
def uiCompanyInputBlocked (input_company : String) : Bool :=
  pyStrip input_company == ""

/-! ### Financial Fact Fetcher: `get_financial_data` (SEC.py lines 80-141) -/

/-- Uncaught Python exception kinds relevant to `get_financial_data`:
`resp.json()` on an undecodable body raises `json.JSONDecodeError`;
subscripting a non-dict JSON value with a string key, or iterating a
non-iterable, raises `TypeError`; calling `.get` on a non-dict raises
`AttributeError`. -/
inductive PyExc where
  | typeError
  | attributeError
  | jsonDecodeError
  deriving DecidableEq

/-- An HTTP response: status code plus the parsed JSON body
(`none` when the body is not decodable JSON, so `resp.json()` raises). -/
structure HttpResp where
  status : Nat
  body : Option Json

/-- Python `item.get(k)` for a JSON value known to be used as a dict:
`none` models Python `None`.  (In the program this is only reached on
dict items; `.get` on a non-dict raises and is modelled separately by
`itemKeep`.) -/
def jsonGetOpt (item : Json) (k : String) : Option Json :=
  match item with
  | .obj kvs => List.lookup k kvs
  | _ => none

/-- Python truthiness of a JSON value (`if not units`). -/
def isFalsy : Json → Bool
  | .null => true
  | .bool b => !b
  | .num q => q == 0
  | .str s => s.isEmpty
  | .arr xs => xs.isEmpty
  | .obj kvs => kvs.isEmpty

/-- The guarded extraction `data["units"]["USD"]` inside
`try ... except KeyError` (SEC.py lines 104-107): a missing key gives
`.ok none` (the caught `KeyError` branch); subscripting a non-dict with
a string key raises `TypeError`, which the `except KeyError` does NOT
catch and therefore escapes. -/
def getUnitsUSD (data : Json) : Except PyExc (Option Json) :=
  match data with
  | .obj kvs =>
    match List.lookup ("units") kvs with
    | none => .ok none
    | some u =>
      match u with
      | .obj kvs2 =>
        match List.lookup ("USD") kvs2 with
        | none => .ok none
        | some usd => .ok (some usd)
      | _ => .error .typeError
  | _ => .error .typeError

/-- Python `for u in units`: lists yield their elements, dicts their
keys, strings their characters (as 1-character strings); truthy
non-iterables (`num`, `bool`) raise `TypeError`. -/
def iterElems : Json → Except PyExc (List Json)
  | .arr xs => .ok xs
  | .obj kvs => .ok (kvs.map (fun kv => Json.str kv.1))
  | .str s => .ok (s.data.map (fun c => Json.str ⟨[c]⟩))
  | _ => .error .typeError

/-- Python `x == "lit"` where `x` is a JSON value or `None`
(`None == s`, `num == s` etc. are `False`). -/
def optEqStr (o : Option Json) (lit : String) : Bool :=
  match o with
  | some (.str t) => t == lit
  | _ => false

/-- The date extraction of `is_full_year` (SEC.py lines 114-115), in
Python's evaluation order: fetch and parse `item["start"]`, then fetch
and parse `item["end"]`; `none` when any step raises. -/
def startEndDates (item : Json) : Option ((Nat × Nat × Nat) × (Nat × Nat × Nat)) :=
  match jsonGetOpt item ("start") with
  | some (.str s) =>
    match parseDate s with
    | some ds =>
      match jsonGetOpt item ("end") with
      | some (.str e) =>
        match parseDate e with
        | some de => some (ds, de)
        | none => none
      | _ => none
    | none => none
  | _ => none

/-- `is_full_year` (SEC.py lines 112-118): parse `item["start"]` and
`item["end"]` as `%Y-%m-%d` dates and test `(end - start).days >= 300`;
the bare `except` turns every failure (missing key, non-string value,
unparseable date, non-dict item) into `False`. -/
def is_full_year (item : Json) : Bool :=
  match startEndDates item with
  | some (ds, de) => decide (300 ≤ (rata de : Int) - (rata ds : Int))
  | none => false

/-- The per-item test of the `ten_k_units` comprehension (SEC.py lines
120-125): `u.get("form") == "10-K" and u.get("fp") == "FY" and
is_full_year(u)`.  On a non-dict `u`, `.get` raises `AttributeError`. -/
def itemKeep : Json → Except PyExc Bool
  | .obj kvs =>
    .ok (optEqStr (List.lookup ("form") kvs) ("10-K")
      && optEqStr (List.lookup ("fp") kvs) ("FY")
      && is_full_year (.obj kvs))
  | _ => .error .attributeError

/-- The `ten_k_units` list comprehension itself, evaluated left to
right; the first raising item aborts the comprehension. -/
def filterTenK : List Json → Except PyExc (List Json)
  | [] => .ok []
  | u :: rest => do
    let b ← itemKeep u
    let r ← filterTenK rest
    pure (if b then u :: r else r)

/-- The sort key `x.get("end", "")` (SEC.py line 129).  Every filter
survivor has a parseable string `"end"` (it passed `is_full_year`), so
Python's `sorted` compares these strings; the default for non-survivor
shapes is irrelevant to the program paths. -/
def sortKey (x : Json) : String :=
  match jsonGetOpt x ("end") with
  | some (.str s) => s
  | _ => ""

/-- Lexicographic comparison of character lists by code point: exactly
Python's `str` ordering (`s <= t`). -/
def listLe : List Char → List Char → Bool
  | [], _ => true
  | _ :: _, [] => false
  | a :: as, b :: bs =>
    decide (a.toNat < b.toNat) || (decide (a.toNat = b.toNat) && listLe as bs)

/-- The descending-sort relation: `a` may precede `b` iff `a`'s end
string is at least `b`'s in Python string order. -/
def endGE (a b : Json) : Prop := listLe (sortKey b).data (sortKey a).data = true

instance : DecidableRel endGE := fun _ _ =>
  inferInstanceAs (Decidable (_ = true))

theorem listLe_cons_iff (x y : Char) (xs ys : List Char) :
    listLe (x :: xs) (y :: ys) = true
      ↔ (x.toNat < y.toNat ∨ (x.toNat = y.toNat ∧ listLe xs ys = true)) := by
  simp [listLe]

theorem listLe_total : ∀ a b : List Char, listLe a b = true ∨ listLe b a = true := by
  intro a
  induction a with
  | nil =>
    intro b
    exact Or.inl rfl
  | cons x xs ih =>
    intro b
    cases b with
    | nil => exact Or.inr rfl
    | cons y ys =>
      rcases Nat.lt_trichotomy x.toNat y.toNat with h | h | h
      · exact Or.inl ((listLe_cons_iff x y xs ys).mpr (Or.inl h))
      · rcases ih ys with h2 | h2
        · exact Or.inl ((listLe_cons_iff x y xs ys).mpr (Or.inr ⟨h, h2⟩))
        · exact Or.inr ((listLe_cons_iff y x ys xs).mpr (Or.inr ⟨h.symm, h2⟩))
      · exact Or.inr ((listLe_cons_iff y x ys xs).mpr (Or.inl h))

theorem listLe_trans :
    ∀ a b c : List Char, listLe a b = true → listLe b c = true → listLe a c = true := by
  intro a
  induction a with
  | nil =>
    intro b c _ _
    rfl
  | cons x xs ih =>
    intro b c h1 h2
    cases b with
    | nil => exact absurd h1 (by simp [listLe])
    | cons y ys =>
      cases c with
      | nil => exact absurd h2 (by simp [listLe])
      | cons z zs =>
        rw [listLe_cons_iff] at h1 h2 ⊢
        rcases h1 with h1 | ⟨h1e, h1r⟩ <;> rcases h2 with h2 | ⟨h2e, h2r⟩
        · exact Or.inl (by omega)
        · exact Or.inl (by omega)
        · exact Or.inl (by omega)
        · exact Or.inr ⟨by omega, ih ys zs h1r h2r⟩

instance : IsTotal Json endGE := ⟨fun a b => listLe_total (sortKey b).data (sortKey a).data⟩

instance : IsTrans Json endGE := ⟨fun _ _ _ h1 h2 => listLe_trans _ _ _ h2 h1⟩

/-- `sorted(ten_k_units, key=lambda x: x.get("end", ""), reverse=True)`
(SEC.py line 129).  Python's sort is stable and `reverse=True` keeps
ties in original order; a stable sort's output is unique, and insertion
sort with `endGE` (which places an element before later-listed equals)
is exactly that stable descending sort. -/
def sortDescByEnd (l : List Json) : List Json := List.insertionSort endGE l

/-- The deduplication key `(item.get("start"), item.get("end"))`
(SEC.py line 134). -/
def itemKey (item : Json) : Option Json × Option Json :=
  (jsonGetOpt item ("start"), jsonGetOpt item ("end"))

/-- The dedup loop (SEC.py lines 131-139): walk the sorted list keeping
the first item of each `(start, end)` key, and stop as soon as
`len(unique_records) == final_count` (checked after each iteration, so
`final_count = 0` never stops early). -/
def dedupGo (final_count : Nat) : List Json → List (Option Json × Option Json) → List Json → List Json
  | [], _, acc => acc
  | i :: rest, seen, acc =>
    if itemKey i ∈ seen then
      if acc.length = final_count then acc else dedupGo final_count rest seen acc
    else
      let acc2 := acc ++ [i]
      if acc2.length = final_count then acc2 else dedupGo final_count rest (itemKey i :: seen) acc2

/-- Lines 129-139 of SEC.py: sort descending by end string, truncate to
`fetch_count`, deduplicate by `(start, end)` up to `final_count`. -/
def processSorted (ten_k_units : List Json) (fetch_count final_count : Nat) : List Json :=
  dedupGo final_count ((sortDescByEnd ten_k_units).take fetch_count) [] []

/-- `get_financial_data` (SEC.py lines 80-141) applied to the HTTP
response for its request.  The result is `.error e` when the Python
call would raise an uncaught exception `e`, and `.ok (records?, err?)`
for a normal return of the pair `(records, error_message)`. -/
def get_financial_data (resp : HttpResp) (concept : String) (fetch_count final_count : Nat) :
    Except PyExc (Option (List Json) × Option String) :=
  if resp.status ≠ 200 then
    .ok (none, some ("Request failed (status " ++ Nat.repr resp.status ++ ") for " ++ concept))
  else
    match resp.body with
    | none => .error .jsonDecodeError
    | some data =>
      match getUnitsUSD data with
      | .error e => .error e
      | .ok none => .ok (none, some ("USD unit not found for " ++ concept))
      | .ok (some units) =>
        if isFalsy units then
          .ok (none, some ("No " ++ concept ++ " (USD) data found"))
        else
          match iterElems units with
          | .error e => .error e
          | .ok elems =>
            match filterTenK elems with
            | .error e => .error e
            | .ok ten_k_units =>
              if ten_k_units.isEmpty then
                .ok (none, some ("No 10-K full-year data found for " ++ concept))
              else
                .ok (some (processSorted ten_k_units fetch_count final_count), none)

/-! ### Series Normalizer (SEC.py lines 227-260)

The claims about the normalizer quantify over yearly `(Year, value)`
rows, so the normalizer is embedded from the pandas block as functions
on such rows; `df.groupby("Year", as_index=False).sum()` sorts the
distinct keys ascending and sums each group. -/

/-- `pd.DataFrame(rows).groupby("Year", as_index=False).sum()`:
ascending distinct years, each with the sum of its values. -/
def groupSumByYear (rows : List (Int × Rat)) : List (Int × Rat) :=
  (List.insertionSort (fun a b => a ≤ b) (rows.map Prod.fst).dedup).map
    (fun y => (y, ((rows.filter (fun r => r.1 == y)).map Prod.snd).sum))

/-- `pd.merge(ldf, rdf, on="Year", how="inner")` for frames with unique
`Year` keys (the `groupby` outputs): keep the left rows whose year
appears on the right, pairing the values; left order is preserved. -/
def mergeInnerByYear (ldf rdf : List (Int × Rat)) : List (Int × Rat × Rat) :=
  ldf.filterMap (fun yr => (List.lookup yr.1 rdf).map (fun n => (yr.1, yr.2, n)))

/-- The ascending-year relation used by `.sort_values("Year")`. -/
def yearLE (a b : Int × Rat × Rat) : Prop := a.1 ≤ b.1

instance : DecidableRel yearLE := fun a b => inferInstanceAs (Decidable (a.1 ≤ b.1))

instance : IsTotal (Int × Rat × Rat) yearLE := ⟨fun a b => le_total a.1 b.1⟩

instance : IsTrans (Int × Rat × Rat) yearLE := ⟨fun _ _ _ h1 h2 => le_trans h1 h2⟩

/-- `df_combined` (SEC.py lines 231-239): group-sum each concept's rows
by year, inner-join on year, sort ascending by year (stable). -/
def df_combined (rev_rows ni_rows : List (Int × Rat)) : List (Int × Rat × Rat) :=
  List.insertionSort yearLE
    (mergeInnerByYear (groupSumByYear rev_rows) (groupSumByYear ni_rows))

/-- `pandas.Series.max()` of a column (callers only use it non-empty). -/
def colMax : List Rat → Rat
  | [] => 0
  | x :: xs => xs.foldl max x

/-- The unit-scaling block (SEC.py lines 241-250): `max_val` is the
larger of the two column maxima (signed, not absolute values); divide
both columns by `1e12` with a trillions label when `max_val >= 1e12`,
else by `1e9` with a billions label. -/
def scaleAndLabel (rows : List (Int × Rat × Rat)) : List (Int × Rat × Rat) × String :=
  let max_val := max (colMax (rows.map (fun r => r.2.1))) (colMax (rows.map (fun r => r.2.2)))
  let fl : Rat × String :=
    if max_val ≥ (10 : Rat) ^ 12 then ((10 : Rat) ^ 12, "(in Trillions USD)")
    else ((10 : Rat) ^ 9, "(in Billions USD)")
  (rows.map (fun r => (r.1, r.2.1 / fl.1, r.2.2 / fl.1)), fl.2)

/-! ### Claim-side (specification-worded) definitions

These restate notions in the words of the specification, to be compared
with the source-derived functions above. -/

/-- Claim-side resolver of spec section 8 / claim C3, exactly as worded:
the tickers of the records whose upper-cased title contains the
upper-cased query after synonym substitution (no trimming of the
query). -/
def specResolveByName (q : String) (snapshot : List TickerRec) : List String :=
  snapshot.filterMap (fun r =>
    if SubstringOf (pyUpper (synonymSubst q)).data (pyUpper r.title).data
    then some r.ticker else none)

/-- Claim-side resolver with the trim that the code actually applies
(the amended C3): the upper-cased query, trimmed of surrounding
whitespace, after synonym substitution. -/
def specResolveByNameTrimmed (q : String) (snapshot : List TickerRec) : List String :=
  snapshot.filterMap (fun r =>
    if SubstringOf (pyStrip (pyUpper (synonymSubst q))).data (pyUpper r.title).data
    then some r.ticker else none)

/-- Number of distinct `(start, end)` keys of `items` that are not in
`seen`, scanned left to right; with `seen = []` this is the claim's
`K`, the number of distinct `(start, end)` pairs. -/
def countNewKeys : List Json → List (Option Json × Option Json) → Nat
  | [], _ => 0
  | i :: rest, seen =>
    if itemKey i ∈ seen then countNewKeys rest seen
    else 1 + countNewKeys rest (itemKey i :: seen)

/-- All values of both numeric columns of a combined table (claim C2's
"across both the revenue and net-income columns"). -/
def allColumnVals (rows : List (Int × Rat × Rat)) : List Rat :=
  rows.map (fun r => r.2.1) ++ rows.map (fun r => r.2.2)

/-- Claim-side scale choice from a global maximum `M` (spec section 4.3):
divisor `10^12` when `M ≥ 10^12`, else `10^9`. -/
def scaleFactor (M : Rat) : Rat :=
  if M ≥ (10 : Rat) ^ 12 then (10 : Rat) ^ 12 else (10 : Rat) ^ 9

/-- Claim-side unit label from a global maximum `M`. -/
def scaleLabel (M : Rat) : String :=
  if M ≥ (10 : Rat) ^ 12 then "(in Trillions USD)" else "(in Billions USD)"

/-- The day number of a record's `end` date (claim-side notion of "end
date" recency for C8; `0` for shapes that cannot occur among filter
survivors). -/
def endRata (u : Json) : Nat :=
  match jsonGetOpt u ("end") with
  | some (.str s) =>
    match parseDate s with
    | some d => rata d
    | none => 0
  | _ => 0

/-- The structured-body shape under which `get_financial_data` cannot
raise (amended C4): the body is a JSON object; its `units` member, when
present, is an object; the `USD` member, when present, is either falsy
or a list of objects. -/
def usdShapeOk (data : Json) : Bool :=
  match data with
  | .obj kvs =>
    match List.lookup ("units") kvs with
    | none => true
    | some (.obj kvs2) =>
      match List.lookup ("USD") kvs2 with
      | none => true
      | some usd =>
        isFalsy usd ||
          (match usd with
           | .arr l => l.all (fun u => match u with | .obj _ => true | _ => false)
           | _ => false)
    | some _ => false
  | _ => false

/-! ### Concrete example data for witnesses and counterexamples -/

/-- A 10-K FY USD fact record with the given period and value. -/
def mkFact (s e : String) (v : Int) : Json :=
  Json.obj [("form", Json.str ("10-K")), ("fp", Json.str ("FY")),
            ("start", Json.str s), ("end", Json.str e), ("val", Json.num v)]

/-- A status-200 response whose body is `{units: {USD: units}}`. -/
def mkResp (units : List Json) : HttpResp :=
  ⟨200, some (Json.obj [("units", Json.obj [("USD", Json.arr units)])])⟩

/-- An item carrying only `start` and `end` date strings. -/
def mkDateItem (s e : String) : Json :=
  Json.obj [("start", Json.str s), ("end", Json.str e)]

/-- A one-record snapshot: Apple. -/
def appleSnap : List TickerRec := [⟨"AAPL", "Apple Inc.", 320193⟩]

/-- A one-record snapshot whose registrant number has 11 digits. -/
def xCorpSnap : List TickerRec := [⟨"X", "X Corp", 10000000000⟩]

/-- 31 filter-admissible facts over only 5 distinct `(start, end)`
pairs, arranged so that the fact with the 5th pair (oldest end date) is
dropped by the `[:fetch_count]` truncation at `fetch_count = 30`. -/
def dupUnits : List Json :=
  List.replicate 8 (mkFact ("2022-09-30") ("2023-09-30") 1)
    ++ List.replicate 8 (mkFact ("2021-09-30") ("2022-09-30") 2)
    ++ List.replicate 8 (mkFact ("2020-09-30") ("2021-09-30") 3)
    ++ List.replicate 6 (mkFact ("2019-09-30") ("2020-09-30") 4)
    ++ [mkFact ("2018-09-30") ("2019-09-30") 5]

/-- The four records `get_financial_data` actually returns on
`dupUnits` with the default parameters. -/
def dupUnitsResult : List Json :=
  [mkFact ("2022-09-30") ("2023-09-30") 1,
   mkFact ("2021-09-30") ("2022-09-30") 2,
   mkFact ("2020-09-30") ("2021-09-30") 3,
   mkFact ("2019-09-30") ("2020-09-30") 4]

/-- A full-year fact whose end date `2023-1-05` is written without a
zero-padded month (accepted by `strptime("%Y-%m-%d")`). -/
def unpaddedFact : Json := mkFact ("2022-1-05") ("2023-1-05") 2

/-- A full-year fact ending `2023-09-01`, chronologically later than
`unpaddedFact`'s end but lexicographically smaller as a string. -/
def paddedFact : Json := mkFact ("2022-09-01") ("2023-09-01") 1

/-- Example revenue rows with years 2020, 2021, 2022 (spec section 8). -/
def exRevRows : List (Int × Rat) := [(2020, 1), (2021, 2), (2022, 3)]

/-- Example net-income rows with years 2021, 2022, 2023. -/
def exNIRows : List (Int × Rat) := [(2021, 4), (2022, 5), (2023, 6)]

/-- A fact record whose `start` field is not a parseable date. -/
def badDateFact : Json :=
  Json.obj [("form", Json.str ("10-K")), ("fp", Json.str ("FY")),
            ("start", Json.str ("oops")), ("end", Json.str ("2023-10-28")),
            ("val", Json.num 7)]

/-! ### Helper lemmas -/

instance {ε α : Type} [DecidableEq ε] [DecidableEq α] : DecidableEq (Except ε α)
  | .ok a, .ok b => decidable_of_iff (a = b) (by simp)
  | .ok _, .error _ => isFalse (fun h => Except.noConfusion h)
  | .error _, .ok _ => isFalse (fun h => Except.noConfusion h)
  | .error e, .error f => decidable_of_iff (e = f) (by simp)

theorem toLower_of_whitespace {c : Char} (h : c.isWhitespace = true) : c.toLower = c := by
  simp only [Char.isWhitespace, Bool.or_eq_true, decide_eq_true_eq] at h
  rcases h with ((h | h) | h) | h <;> subst h <;> decide

theorem toUpper_of_whitespace {c : Char} (h : c.isWhitespace = true) : c.toUpper = c := by
  simp only [Char.isWhitespace, Bool.or_eq_true, decide_eq_true_eq] at h
  rcases h with ((h | h) | h) | h <;> subst h <;> decide

theorem all_whitespace_of_pyStripList_nil {l : List Char} (h : pyStripList l = []) :
    ∀ c ∈ l, c.isWhitespace = true := by
  intro c hc
  unfold pyStripList at h
  rw [List.reverse_eq_nil_iff] at h
  have h3 : ∀ x ∈ l.dropWhile Char.isWhitespace, x.isWhitespace = true := by
    intro x hx
    exact List.dropWhile_eq_nil_iff.mp h x (List.mem_reverse.mpr hx)
  have hsplit : c ∈ l.takeWhile Char.isWhitespace ++ l.dropWhile Char.isWhitespace := by
    rw [List.takeWhile_append_dropWhile]
    exact hc
  rcases List.mem_append.mp hsplit with h4 | h4
  · exact List.mem_takeWhile_imp h4
  · exact h3 c h4

theorem containsList_nil : ∀ hay : List Char, containsList [] hay = true := by
  intro hay
  cases hay <;> simp [containsList, List.isPrefixOf]

theorem filterTenK_all_true {l : List Json} (h : ∀ u ∈ l, itemKeep u = .ok true) :
    filterTenK l = .ok l := by
  induction l with
  | nil => rfl
  | cons x rest ih =>
    have hx := h x (List.mem_cons_self x rest)
    have hr := ih (fun u hu => h u (List.mem_cons_of_mem _ hu))
    unfold filterTenK
    rw [hx, hr]
    rfl

theorem filterTenK_ok_of_obj :
    ∀ l : List Json, (∀ u ∈ l, ∃ kvs, u = Json.obj kvs) → ∃ l', filterTenK l = .ok l' := by
  intro l h
  induction l with
  | nil => exact ⟨[], rfl⟩
  | cons x rest ih =>
    obtain ⟨kvs, rfl⟩ := h x (List.mem_cons_self x rest)
    obtain ⟨l', hl'⟩ := ih (fun u hu => h u (List.mem_cons_of_mem _ hu))
    refine ⟨if (optEqStr (List.lookup ("form") kvs) ("10-K")
        && optEqStr (List.lookup ("fp") kvs) ("FY")
        && is_full_year (.obj kvs)) then Json.obj kvs :: l' else l', ?_⟩
    unfold filterTenK
    rw [hl']
    rfl

/-- Evaluating `get_financial_data` on a well-formed `{units:{USD:[...]}}`
response reduces to the post-filter branch of the function. -/
theorem gfd_mkResp (units : List Json) (concept : String) (fc fcnt : Nat) (l' : List Json)
    (hne : units ≠ []) (hfil : filterTenK units = .ok l') :
    get_financial_data (mkResp units) concept fc fcnt =
      if l'.isEmpty then .ok (none, some ("No 10-K full-year data found for " ++ concept))
      else .ok (some (processSorted l' fc fcnt), none) := by
  have hemp : (Json.arr units |> isFalsy) = false := by
    simp [isFalsy, hne]
  simp [get_financial_data, mkResp, getUnitsUSD, iterElems, hemp, hfil]

/-! ### Claim C6: the full-year filter threshold -/

/-- Claim C6: for a record whose `start` and `end` fields are parseable
date strings, `is_full_year` admits it exactly when the period length
`end - start` is at least 300 days.  (The 299/300-day instances are in
`claim6_witness`.) -/
theorem claim6_full_year_threshold (kvs : List (String × Json)) (ss es : String)
    (ds de : Nat × Nat × Nat)
    (hs : jsonGetOpt (Json.obj kvs) ("start") = some (Json.str ss))
    (he : jsonGetOpt (Json.obj kvs) ("end") = some (Json.str es))
    (hps : parseDate ss = some ds) (hpe : parseDate es = some de) :
    is_full_year (Json.obj kvs) = true ↔ 300 ≤ (rata de : Int) - (rata ds : Int) := by
  simp only [is_full_year, startEndDates, hs, he, hps, hpe, decide_eq_true_eq]

/-- Witness for C6: `2023-01-01 .. 2023-10-28` spans exactly 300 days
and is admitted; `2023-01-01 .. 2023-10-27` spans 299 days and is
excluded. -/
theorem claim6_witness :
    is_full_year (mkDateItem ("2023-01-01") ("2023-10-28")) = true
    ∧ is_full_year (mkDateItem ("2023-01-01") ("2023-10-27")) = false :=
  ⟨(claim6_full_year_threshold [("start", Json.str ("2023-01-01")), ("end", Json.str ("2023-10-28"))]
      ("2023-01-01") ("2023-10-28") (2023, 1, 1) (2023, 10, 28) rfl rfl rfl rfl).mpr (by decide),
   by decide⟩

/-! ### Claim C9: malformed dates exclude only the affected record -/

/-- Claim C9: a record lacking a `start`/`end` field or carrying an
unparseable date string is rejected by `is_full_year`; the filter drops
exactly that record while processing the rest unchanged; and the whole
fetch on a response containing it still returns normally (no uncaught
exception) as long as the remaining records are JSON objects. -/
theorem claim9_bad_date_excluded (pre post : List Json) (kvs : List (String × Json))
    (concept : String) (fc fcnt : Nat)
    (h : (jsonGetOpt (Json.obj kvs) ("start") = none
            ∨ ∃ s, jsonGetOpt (Json.obj kvs) ("start") = some (Json.str s) ∧ parseDate s = none)
       ∨ (jsonGetOpt (Json.obj kvs) ("end") = none
            ∨ ∃ e, jsonGetOpt (Json.obj kvs) ("end") = some (Json.str e) ∧ parseDate e = none)) :
    is_full_year (Json.obj kvs) = false
    ∧ filterTenK (pre ++ Json.obj kvs :: post) = filterTenK (pre ++ post)
    ∧ ((∀ u ∈ pre ++ post, ∃ l, u = Json.obj l) →
        ∃ r e_, get_financial_data (mkResp (pre ++ Json.obj kvs :: post)) concept fc fcnt
          = .ok (r, e_)) := by
  have hdates : startEndDates (Json.obj kvs) = none := by
    rcases h with (hn | ⟨s, hs, hps⟩) | hend
    · simp only [startEndDates, hn]
    · simp only [startEndDates, hs, hps]
    · cases hS : jsonGetOpt (Json.obj kvs) ("start") with
      | none => simp only [startEndDates, hS]
      | some v =>
        cases v with
        | str s =>
          cases hP : parseDate s with
          | none => simp only [startEndDates, hS, hP]
          | some ds =>
            rcases hend with hn | ⟨e, he, hpe⟩
            · simp only [startEndDates, hS, hP, hn]
            · simp only [startEndDates, hS, hP, he, hpe]
        | null => simp only [startEndDates, hS]
        | bool b => simp only [startEndDates, hS]
        | num q => simp only [startEndDates, hS]
        | arr xs => simp only [startEndDates, hS]
        | obj o => simp only [startEndDates, hS]
  have hfy : is_full_year (Json.obj kvs) = false := by
    unfold is_full_year
    rw [hdates]
  have hkeep : itemKeep (Json.obj kvs) = .ok false := by
    simp [itemKeep, hfy]
  refine ⟨hfy, ?_, ?_⟩
  · induction pre with
    | nil =>
      simp only [List.nil_append, filterTenK, hkeep]
      cases hq : filterTenK post <;> rfl
    | cons x pre ih =>
      simp only [List.cons_append]
      unfold filterTenK
      rw [ih]
  · intro hobj
    obtain ⟨l', hl'⟩ := filterTenK_ok_of_obj (pre ++ Json.obj kvs :: post) (by
      intro u hu
      rcases List.mem_append.mp hu with h1 | h2
      · exact hobj u (List.mem_append_left _ h1)
      · rcases List.mem_cons.mp h2 with rfl | h3
        · exact ⟨kvs, rfl⟩
        · exact hobj u (List.mem_append_right _ h3))
    rw [gfd_mkResp _ _ _ _ _ (by simp) hl']
    by_cases hemp : l'.isEmpty <;> simp [hemp]

/-- Witness for C9: a concrete fetch whose middle record has the
unparseable start date `"oops"`: that record is excluded, the two good
records are both kept, and the fetch returns normally. -/
theorem claim9_witness :
    is_full_year badDateFact = false
    ∧ filterTenK [mkFact ("2022-09-30") ("2023-09-30") 1, badDateFact,
        mkFact ("2021-09-30") ("2022-09-30") 2]
      = filterTenK [mkFact ("2022-09-30") ("2023-09-30") 1, mkFact ("2021-09-30") ("2022-09-30") 2]
    ∧ ∃ r e_, get_financial_data
        (mkResp [mkFact ("2022-09-30") ("2023-09-30") 1, badDateFact,
          mkFact ("2021-09-30") ("2022-09-30") 2]) ("NetIncomeLoss") 30 10 = .ok (r, e_) := by
  have h := claim9_bad_date_excluded [mkFact ("2022-09-30") ("2023-09-30") 1]
    [mkFact ("2021-09-30") ("2022-09-30") 2]
    [("form", Json.str ("10-K")), ("fp", Json.str ("FY")),
      ("start", Json.str ("oops")), ("end", Json.str ("2023-10-28")), ("val", Json.num 7)]
    ("NetIncomeLoss") 30 10
    (Or.inl (Or.inr ⟨"oops", rfl, rfl⟩))
  exact ⟨h.1, h.2.1, h.2.2 (by
    intro u hu
    rcases List.mem_cons.mp hu with rfl | hu2
    · exact ⟨_, rfl⟩
    · rcases List.mem_cons.mp hu2 with rfl | hu3
      · exact ⟨_, rfl⟩
      · exact absurd hu3 (List.not_mem_nil u))⟩

/-! ### Claim C10: blank queries match every record -/

/-- Claim C10: a query that strips to the empty string bypasses the
synonym table, upper-cases/strips to the empty string, and matches the
title of every record, so `get_ticker_from_company_name` returns every
ticker of the snapshot; the non-empty-input check exists only in the UI
guard (`uiCompanyInputBlocked`), which halts on exactly these inputs. -/
theorem claim10_blank_query (q : String) (snap : List TickerRec) (h : pyStrip q = "") :
    get_ticker_from_company_name q snap = snap.map (fun r => r.ticker)
    ∧ uiCompanyInputBlocked q = true := by
  have hld : pyStripList q.data = [] := congrArg String.data h
  have hws := all_whitespace_of_pyStripList_nil hld
  have hlow : q.data.map Char.toLower = q.data := by
    rw [List.map_congr_left (fun c hc => toLower_of_whitespace (hws c hc))]
    exact List.map_id _
  have hup : q.data.map Char.toUpper = q.data := by
    rw [List.map_congr_left (fun c hc => toUpper_of_whitespace (hws c hc))]
    exact List.map_id _
  have hlowq : pyLower q = q := by
    unfold pyLower
    rw [hlow]
  have hupq : pyUpper q = q := by
    unfold pyUpper
    rw [hup]
  have hsynq : synonymSubst q = q := by
    unfold synonymSubst
    rw [hlowq, h]
    rfl
  constructor
  · have hall : ∀ info : TickerRec, strContains ("") (pyUpper info.title) = true := by
      intro info
      unfold strContains
      exact containsList_nil _
    simp only [get_ticker_from_company_name, hsynq, hupq, h]
    rw [List.filter_eq_self.mpr (fun a _ => hall a)]
  · simp [uiCompanyInputBlocked, h]

/-- Witness for C10: the two-record snapshot and the whitespace-only
query `" "`: every ticker is returned and the UI guard blocks. -/
theorem claim10_witness :
    get_ticker_from_company_name (" ") [⟨"AAPL", "Apple Inc.", 320193⟩, ⟨"MSFT", "Microsoft Corp", 789019⟩]
      = ["AAPL", "MSFT"]
    ∧ uiCompanyInputBlocked (" ") = true := by
  have h := claim10_blank_query (" ")
    [⟨"AAPL", "Apple Inc.", 320193⟩, ⟨"MSFT", "Microsoft Corp", 789019⟩] (by decide)
  exact ⟨h.1, h.2⟩

/-! ### Claim C7: ticker resolution is exact-match (after trimming) -/

/-- Claim C7 (amended): `get_cik_from_ticker` returns the empty string
exactly when no record's upper-cased ticker equals the upper-cased,
whitespace-trimmed query; on success, the first matching record's
number is rendered as `"CIK"` plus its decimal string left-padded with
zeros to a minimum width of 10 (exactly 10 digits whenever the number
has at most 10 digits). -/
theorem claim7_ticker_exact_match (q : String) (snap : List TickerRec) :
    (get_cik_from_ticker q snap = "" ↔ ∀ r ∈ snap, pyUpper r.ticker ≠ pyStrip (pyUpper q))
    ∧ (get_cik_from_ticker q snap ≠ "" →
        ∃ r ∈ snap, pyUpper r.ticker = pyStrip (pyUpper q)
          ∧ get_cik_from_ticker q snap = "CIK" ++ zfill 10 (Nat.repr r.cik)
          ∧ (zfill 10 (Nat.repr r.cik)).length = max 10 (Nat.repr r.cik).length) := by
  cases hf : snap.find? (fun info => pyUpper info.ticker == pyStrip (pyUpper q)) with
  | none =>
    have hnone := List.find?_eq_none.mp hf
    have hget : get_cik_from_ticker q snap = "" := by
      simp only [get_cik_from_ticker]
      rw [hf]
    constructor
    · constructor
      · intro _ r hr
        have := hnone r hr
        simpa using this
      · intro _
        exact hget
    · intro hne
      exact absurd hget hne
  | some r =>
    have hp := List.find?_some hf
    have hmem := List.mem_of_find?_eq_some hf
    have heq : pyUpper r.ticker = pyStrip (pyUpper q) := by simpa using hp
    have hout : get_cik_from_ticker q snap = "CIK" ++ zfill 10 (Nat.repr r.cik) := by
      simp only [get_cik_from_ticker]
      rw [hf]
    have hlen : (zfill 10 (Nat.repr r.cik)).length = max 10 (Nat.repr r.cik).length := by
      unfold zfill
      rw [String.length_mk, List.length_append, List.length_replicate]
      exact Nat.sub_add_eq_max 10 (Nat.repr r.cik).length
    have hne : "CIK" ++ zfill 10 (Nat.repr r.cik) ≠ "" := by
      intro hcontr
      have hl := congrArg String.length hcontr
      rw [String.length_append, String.length_empty] at hl
      have h3 : ("CIK" : String).length = 3 := rfl
      omega
    constructor
    · constructor
      · intro h0
        rw [hout] at h0
        exact absurd h0 hne
      · intro hall
        exact absurd heq (hall r hmem)
    · intro _
      exact ⟨r, hmem, heq, hout, hlen⟩

/-- Witness for C7: resolving `"aapl"` against the Apple snapshot
succeeds with `"CIK0000320193"` (exactly 10 digits). -/
theorem claim7_witness :
    get_cik_from_ticker ("aapl") appleSnap = "CIK0000320193"
    ∧ ∃ r ∈ appleSnap, pyUpper r.ticker = pyStrip (pyUpper ("aapl"))
        ∧ get_cik_from_ticker ("aapl") appleSnap = "CIK" ++ zfill 10 (Nat.repr r.cik)
        ∧ (zfill 10 (Nat.repr r.cik)).length = max 10 (Nat.repr r.cik).length :=
  ⟨by decide, (claim7_ticker_exact_match ("aapl") appleSnap).2 (by decide)⟩

/-- Counterexample for C7 as stated: the query `" x "` is not an exact
case-insensitive match of the known ticker `"X"` (the claim then demands
the empty string), yet the code strips it and succeeds; moreover the
returned identifier for the 11-digit registrant number `10^10` has 11
digits, not "exactly 10 digits" (length 14, not 3 + 10). -/
theorem claim7_counterexample :
    get_cik_from_ticker (" x ") xCorpSnap = "CIK10000000000"
    ∧ (∀ r ∈ xCorpSnap, pyUpper (" x ") ≠ pyUpper r.ticker)
    ∧ ("CIK10000000000" : String).length ≠ 3 + 10 := by
  refine ⟨by decide, ?_, by decide⟩
  decide

/-! ### Claim C3: name resolution by substring match -/

/-- A `filter`-then-`map` pipeline is the `filterMap` of the guarded
function. -/
theorem filter_map_eq_filterMap {α β : Type} (p : α → Bool) (f : α → β) (l : List α) :
    (l.filter p).map f = l.filterMap (fun a => if p a = true then some (f a) else none) := by
  induction l with
  | nil => rfl
  | cons a l ih =>
    cases hp : p a <;> simp [List.filter_cons, List.filterMap_cons, hp, ih]

/-- Claim C3 (amended): `get_ticker_from_company_name` returns exactly
the tickers of the records whose upper-cased title contains, as a
substring, the upper-cased and whitespace-trimmed query after synonym
substitution. -/
theorem claim3_name_substring_match (q : String) (snap : List TickerRec) :
    get_ticker_from_company_name q snap = specResolveByNameTrimmed q snap := by
  have hpt : ∀ a : TickerRec,
      (if strContains (pyStrip (pyUpper (synonymSubst q))) (pyUpper a.title) = true
        then some a.ticker else none)
      = (if SubstringOf (pyStrip (pyUpper (synonymSubst q))).data (pyUpper a.title).data
        then some a.ticker else none) :=
    fun a => if_congr (containsList_iff _ _) rfl rfl
  simp only [get_ticker_from_company_name, specResolveByNameTrimmed]
  rw [filter_map_eq_filterMap]
  simp only [hpt]

/-- Counterexample for C3 as stated: for the query `" apple "` (not a
synonym key; upper-cases to `" APPLE "` with its surrounding spaces
kept), the claim-worded resolver finds no title containing `" APPLE "`,
but the code strips the query and returns `["AAPL"]`. -/
theorem claim3_counterexample :
    get_ticker_from_company_name (" apple ") appleSnap = ["AAPL"]
    ∧ specResolveByName (" apple ") appleSnap = [] := by
  constructor <;> decide

/-! ### Claim C2: unit scaling by the global maximum -/

theorem foldl_max_mem (xs : List Rat) (a : Rat) : xs.foldl max a = a ∨ xs.foldl max a ∈ xs := by
  induction xs generalizing a with
  | nil => exact Or.inl rfl
  | cons y ys ih =>
    rw [List.foldl_cons]
    rcases ih (max a y) with h | h
    · rcases max_choice a y with hm | hm
      · left
        rw [h, hm]
      · right
        rw [h, hm]
        exact List.mem_cons_self y ys
    · right
      exact List.mem_cons_of_mem _ h

theorem le_foldl_max (xs : List Rat) (a : Rat) :
    a ≤ xs.foldl max a ∧ ∀ v ∈ xs, v ≤ xs.foldl max a := by
  induction xs generalizing a with
  | nil => exact ⟨le_refl a, by simp⟩
  | cons y ys ih =>
    obtain ⟨h1, h2⟩ := ih (max a y)
    rw [List.foldl_cons]
    refine ⟨le_trans (le_max_left a y) h1, ?_⟩
    intro v hv
    rcases List.mem_cons.mp hv with rfl | hv2
    · exact le_trans (le_max_right a v) h1
    · exact h2 v hv2

theorem colMax_mem {l : List Rat} (h : l ≠ []) : colMax l ∈ l := by
  cases l with
  | nil => exact absurd rfl h
  | cons x xs =>
    rcases foldl_max_mem xs x with h2 | h2
    · rw [colMax, h2]
      exact List.mem_cons_self x xs
    · rw [colMax]
      exact List.mem_cons_of_mem _ h2

theorem le_colMax {l : List Rat} : ∀ v ∈ l, v ≤ colMax l := by
  intro v hv
  cases l with
  | nil => exact absurd hv (List.not_mem_nil v)
  | cons x xs =>
    rcases List.mem_cons.mp hv with rfl | hv2
    · exact (le_foldl_max xs v).1
    · exact (le_foldl_max xs x).2 v hv2

/-- Claim C2 (amended): for a non-empty combined table the divisor is
chosen from the maximum signed value `M` across both columns (not the
maximum absolute value): divisor `10^12` with the trillions label when
`M ≥ 10^12`, else `10^9` with the billions label, and the same divisor
is applied to both columns. -/
theorem claim2_unit_scaling (rows : List (Int × Rat × Rat)) (h : rows ≠ []) :
    ∃ M, (M ∈ allColumnVals rows ∧ ∀ v ∈ allColumnVals rows, v ≤ M)
      ∧ scaleAndLabel rows
          = (rows.map (fun r => (r.1, r.2.1 / scaleFactor M, r.2.2 / scaleFactor M)), scaleLabel M) := by
  have h1 : rows.map (fun r => r.2.1) ≠ [] := by
    cases rows with
    | nil => exact absurd rfl h
    | cons a l => simp
  have h2 : rows.map (fun r => r.2.2) ≠ [] := by
    cases rows with
    | nil => exact absurd rfl h
    | cons a l => simp
  refine ⟨max (colMax (rows.map (fun r => r.2.1))) (colMax (rows.map (fun r => r.2.2))),
    ⟨?_, ?_⟩, ?_⟩
  · rcases max_choice (colMax (rows.map (fun r => r.2.1)))
      (colMax (rows.map (fun r => r.2.2))) with hm | hm
    · rw [hm]
      exact List.mem_append_left _ (colMax_mem h1)
    · rw [hm]
      exact List.mem_append_right _ (colMax_mem h2)
  · intro v hv
    rcases List.mem_append.mp hv with hv2 | hv2
    · exact le_trans (le_colMax v hv2) (le_max_left _ _)
    · exact le_trans (le_colMax v hv2) (le_max_right _ _)
  · simp only [scaleAndLabel, scaleFactor, scaleLabel]
    by_cases hM : max (colMax (rows.map (fun r => r.2.1)))
        (colMax (rows.map (fun r => r.2.2))) ≥ (10 : Rat) ^ 12
    · rw [if_pos hM, if_pos hM, if_pos hM]
    · rw [if_neg hM, if_neg hM, if_neg hM]

/-- Witness for C2 (amended) at the spec's own example: revenue maximum
`2 * 10^12`, net-income maximum `5 * 10^10`; the divisor is chosen from
the global maximum and applied to both columns. -/
theorem claim2_witness :
    ∃ M, (M ∈ allColumnVals [((2023 : Int), (2 * 10 ^ 12 : Rat), (5 * 10 ^ 10 : Rat))]
        ∧ ∀ v ∈ allColumnVals [((2023 : Int), (2 * 10 ^ 12 : Rat), (5 * 10 ^ 10 : Rat))], v ≤ M)
      ∧ scaleAndLabel [((2023 : Int), (2 * 10 ^ 12 : Rat), (5 * 10 ^ 10 : Rat))]
          = ([((2023 : Int), (2 * 10 ^ 12 : Rat), (5 * 10 ^ 10 : Rat))].map
              (fun r => (r.1, r.2.1 / scaleFactor M, r.2.2 / scaleFactor M)), scaleLabel M) :=
  claim2_unit_scaling [((2023 : Int), (2 * 10 ^ 12 : Rat), (5 * 10 ^ 10 : Rat))] (by simp)

/-- Counterexample for C2 as stated: in the table with revenue
`5 * 10^11` and net income `-15 * 10^11`, the maximum absolute value is
`1.5 * 10^12 ≥ 10^12` (so the claim demands the trillions divisor), but
the code takes the plain maximum `5 * 10^11 < 10^12` and divides both
columns by `10^9` with the billions label. -/
theorem claim2_counterexample :
    scaleAndLabel [((2023 : Int), (5 * 10 ^ 11 : Rat), (-(15 * 10 ^ 11) : Rat))]
      = ([((2023 : Int), (500 : Rat), (-1500 : Rat))], "(in Billions USD)")
    ∧ (10 : Rat) ^ 12 ≤ |(-(15 * 10 ^ 11) : Rat)| := by
  constructor
  · simp only [scaleAndLabel, colMax, List.map_cons, List.map_nil, List.foldl_nil]
    rw [if_neg (by norm_num)]
    norm_num
  · rw [abs_neg, abs_of_nonneg (by norm_num)]
    norm_num

/-! ### Claim C5: the combined table is an ascending inner join -/

theorem lookup_isSome_iff {beta : Type} (y : Int) (l : List (Int × beta)) :
    (List.lookup y l).isSome = true ↔ y ∈ l.map Prod.fst := by
  induction l with
  | nil => simp [List.lookup]
  | cons kv rest ih =>
    obtain ⟨k, v⟩ := kv
    by_cases hk : y = k
    · subst hk
      simp [List.lookup]
    · have hb : (y == k) = false := by simpa using hk
      simp [List.lookup, hb, ih, hk]

theorem mem_mergeInner_keys (ldf rdf : List (Int × Rat)) (y : Int) :
    y ∈ (mergeInnerByYear ldf rdf).map (fun t => t.1)
      ↔ (y ∈ ldf.map Prod.fst ∧ (List.lookup y rdf).isSome = true) := by
  induction ldf with
  | nil => simp [mergeInnerByYear]
  | cons yr rest ih =>
    obtain ⟨k, rv⟩ := yr
    simp only [mergeInnerByYear] at ih ⊢
    rw [List.filterMap_cons]
    cases hl : List.lookup k rdf with
    | none =>
      by_cases hyk : y = k
      · subst hyk
        simp [ih, hl]
      · simp [ih, List.mem_cons, hyk]
    | some n =>
      by_cases hyk : y = k
      · subst hyk
        simp [hl]
      · simp [ih, List.mem_cons, hyk]

theorem mergeInner_keys_sublist (ldf rdf : List (Int × Rat)) :
    List.Sublist ((mergeInnerByYear ldf rdf).map (fun t => t.1)) (ldf.map Prod.fst) := by
  induction ldf with
  | nil => simp [mergeInnerByYear]
  | cons yr rest ih =>
    obtain ⟨k, rv⟩ := yr
    simp only [mergeInnerByYear] at ih ⊢
    rw [List.filterMap_cons]
    cases hl : List.lookup k rdf with
    | none =>
      rw [List.map_cons]
      exact ih.trans (List.sublist_cons_self k _)
    | some n =>
      exact ih.cons₂ _

theorem groupSum_keys (rows : List (Int × Rat)) :
    (groupSumByYear rows).map Prod.fst
      = List.insertionSort (fun a b => a ≤ b) (rows.map Prod.fst).dedup := by
  simp [groupSumByYear, List.map_map, Function.comp_def]

theorem groupSum_keys_nodup (rows : List (Int × Rat)) :
    ((groupSumByYear rows).map Prod.fst).Nodup := by
  rw [groupSum_keys]
  exact (List.perm_insertionSort _ _).nodup_iff.mpr (List.nodup_dedup _)

theorem mem_groupSum_keys (rows : List (Int × Rat)) (y : Int) :
    y ∈ (groupSumByYear rows).map Prod.fst ↔ y ∈ rows.map Prod.fst := by
  rw [groupSum_keys, (List.perm_insertionSort _ _).mem_iff]
  exact List.mem_dedup

/-- Claim C5: the combined table contains exactly the years present in
both input series (inner join on year) in strictly ascending order; in
particular revenue years 2020-2022 joined with net-income years
2021-2023 give exactly the years 2021, 2022 in ascending order. -/
theorem claim5_inner_join :
    (∀ a b : List (Int × Rat),
      List.Sorted (fun y z => y < z) ((df_combined a b).map (fun t => t.1))
      ∧ ∀ y : Int, y ∈ (df_combined a b).map (fun t => t.1)
          ↔ (y ∈ a.map Prod.fst ∧ y ∈ b.map Prod.fst))
    ∧ (df_combined exRevRows exNIRows).map (fun t => t.1) = [2021, 2022] := by
  have main : ∀ a b : List (Int × Rat),
      List.Sorted (fun y z => y < z) ((df_combined a b).map (fun t => t.1))
      ∧ ∀ y : Int, y ∈ (df_combined a b).map (fun t => t.1)
          ↔ (y ∈ a.map Prod.fst ∧ y ∈ b.map Prod.fst) := by
    intro a b
    have hperm : List.Perm (df_combined a b)
        (mergeInnerByYear (groupSumByYear a) (groupSumByYear b)) :=
      List.perm_insertionSort _ _
    have hkeysperm : List.Perm ((df_combined a b).map (fun t => t.1))
        ((mergeInnerByYear (groupSumByYear a) (groupSumByYear b)).map (fun t => t.1)) :=
      hperm.map _
    have hnodup : ((df_combined a b).map (fun t => t.1)).Nodup :=
      hkeysperm.nodup_iff.mpr
        ((mergeInner_keys_sublist (groupSumByYear a) (groupSumByYear b)).nodup
          (groupSum_keys_nodup a))
    have hs : (df_combined a b).Sorted yearLE := List.sorted_insertionSort _ _
    have hsortedle : ((df_combined a b).map (fun t => t.1)).Sorted (fun y z => y ≤ z) :=
      List.pairwise_map.mpr (hs.imp fun h => h)
    constructor
    · exact (hsortedle.and hnodup).imp fun h => lt_of_le_of_ne h.1 h.2
    · intro y
      rw [hkeysperm.mem_iff, mem_mergeInner_keys, mem_groupSum_keys, lookup_isSome_iff,
        mem_groupSum_keys]
  refine ⟨main, ?_⟩
  have h1 := main exRevRows exNIRows
  have hn1 : ((df_combined exRevRows exNIRows).map (fun t => t.1)).Nodup :=
    h1.1.imp fun h => ne_of_lt h
  refine List.eq_of_perm_of_sorted ?_ (h1.1.imp fun h => le_of_lt h) (by decide)
  rw [List.perm_ext_iff_of_nodup hn1 (by decide)]
  intro y
  rw [h1.2 y]
  simp only [exRevRows, exNIRows, List.map_cons, List.map_nil, List.mem_cons,
    List.not_mem_nil, or_false]
  omega

/-! ### The dedup loop: length, key-uniqueness and order lemmas -/

theorem dedupGo_length (fcnt : Nat) :
    ∀ (items : List Json) (seen : List (Option Json × Option Json)) (acc : List Json),
      acc.length < fcnt →
      (dedupGo fcnt items seen acc).length = min (acc.length + countNewKeys items seen) fcnt := by
  intro items
  induction items with
  | nil =>
    intro seen acc hlt
    simp only [dedupGo, countNewKeys]
    omega
  | cons i rest ih =>
    intro seen acc hlt
    by_cases hmem : itemKey i ∈ seen
    · simp only [dedupGo, countNewKeys, if_pos hmem]
      rw [if_neg (Nat.ne_of_lt hlt)]
      exact ih seen acc hlt
    · have hlen2 : (acc ++ [i]).length = acc.length + 1 := by simp
      by_cases hstop : acc.length + 1 = fcnt
      · simp only [dedupGo, countNewKeys, if_neg hmem, hlen2]
        rw [if_pos hstop, hlen2]
        omega
      · simp only [dedupGo, countNewKeys, if_neg hmem, hlen2]
        rw [if_neg hstop]
        rw [ih (itemKey i :: seen) (acc ++ [i]) (by rw [hlen2]; omega)]
        rw [hlen2]
        omega

theorem countNewKeys_eq (items : List Json) :
    ∀ seen : List (Option Json × Option Json),
      countNewKeys items seen = ((items.map itemKey).toFinset \ seen.toFinset).card := by
  induction items with
  | nil =>
    intro seen
    simp [countNewKeys]
  | cons i rest ih =>
    intro seen
    by_cases hmem : itemKey i ∈ seen
    · simp only [countNewKeys, if_pos hmem, ih seen]
      rw [List.map_cons, List.toFinset_cons]
      rw [Finset.insert_sdiff_of_mem _ (List.mem_toFinset.mpr hmem)]
    · simp only [countNewKeys, if_neg hmem, ih (itemKey i :: seen)]
      rw [List.map_cons, List.toFinset_cons, List.toFinset_cons]
      rw [Finset.sdiff_insert]
      rw [Finset.insert_sdiff_of_not_mem _ (fun hc => hmem (List.mem_toFinset.mp hc))]
      by_cases hk : itemKey i ∈ (rest.map itemKey).toFinset \ seen.toFinset
      · rw [Finset.insert_eq_self.mpr hk]
        have := Finset.card_erase_add_one hk
        omega
      · rw [Finset.erase_eq_of_not_mem hk, Finset.card_insert_of_not_mem hk]
        omega

theorem dedupGo_nodup (fcnt : Nat) :
    ∀ (items : List Json) (seen : List (Option Json × Option Json)) (acc : List Json),
      (acc.map itemKey).Nodup → (∀ k ∈ acc.map itemKey, k ∈ seen) →
      ((dedupGo fcnt items seen acc).map itemKey).Nodup := by
  intro items
  induction items with
  | nil =>
    intro seen acc h1 _
    simpa [dedupGo] using h1
  | cons i rest ih =>
    intro seen acc h1 h2
    simp only [dedupGo]
    by_cases hmem : itemKey i ∈ seen
    · rw [if_pos hmem]
      split
      · exact h1
      · exact ih seen acc h1 h2
    · rw [if_neg hmem]
      have hnotin : itemKey i ∉ acc.map itemKey := fun hc => hmem (h2 _ hc)
      have h1' : ((acc ++ [i]).map itemKey).Nodup := by
        rw [List.map_append]
        simp [List.nodup_append, h1, hnotin]
      have h2' : ∀ k ∈ (acc ++ [i]).map itemKey, k ∈ (itemKey i :: seen) := by
        intro k hk
        rw [List.map_append] at hk
        rcases List.mem_append.mp hk with hk2 | hk2
        · exact List.mem_cons_of_mem _ (h2 _ hk2)
        · simp only [List.map_cons, List.map_nil, List.mem_singleton] at hk2
          subst hk2
          exact List.mem_cons_self _ _
      split
      · exact h1'
      · exact ih _ _ h1' h2'

theorem dedupGo_sublist (fcnt : Nat) :
    ∀ (items : List Json) (seen : List (Option Json × Option Json)) (acc : List Json),
      List.Sublist (dedupGo fcnt items seen acc) (acc ++ items) := by
  intro items
  induction items with
  | nil =>
    intro seen acc
    simp [dedupGo]
  | cons i rest ih =>
    intro seen acc
    simp only [dedupGo]
    by_cases hmem : itemKey i ∈ seen
    · rw [if_pos hmem]
      split
      · exact List.sublist_append_left acc (i :: rest)
      · exact (ih seen acc).trans
          (List.Sublist.append_left (List.sublist_cons_self i rest) acc)
    · rw [if_neg hmem]
      split
      · exact List.Sublist.append_left (List.Sublist.cons₂ i (List.nil_sublist rest)) acc
      · have := ih (itemKey i :: seen) (acc ++ [i])
        rw [List.append_assoc] at this
        simpa using this

/-! ### Claim C1 (amended): dedup count min(K, finalCount) -/

/-- Claim C1 (amended): for `N` raw facts all admitted by the
10-K/FY/full-year filter with `K < N` distinct `(start, end)` pairs,
and provided `N ≤ fetch_count` (so the `[:fetch_count]` truncation
drops nothing) and `final_count ≥ 1`, `get_financial_data` succeeds and
returns exactly `min(K, final_count)` records. -/
theorem claim1_dedup_count (units : List Json) (concept : String) (fc fcnt : Nat)
    (hkeep : ∀ u ∈ units, itemKeep u = .ok true)
    (hKN : ((units.map itemKey).toFinset).card < units.length)
    (hN : units.length ≤ fc)
    (hfcnt : 1 ≤ fcnt) :
    get_financial_data (mkResp units) concept fc fcnt
      = .ok (some (processSorted units fc fcnt), none)
    ∧ (processSorted units fc fcnt).length = min ((units.map itemKey).toFinset).card fcnt := by
  have hne : units ≠ [] := by
    intro hcontr
    subst hcontr
    simp at hKN
  have hfil := filterTenK_all_true hkeep
  have hsorted_len : (sortDescByEnd units).length = units.length :=
    (List.perm_insertionSort _ _).length_eq
  have htake : (sortDescByEnd units).take fc = sortDescByEnd units :=
    List.take_of_length_le (by rw [hsorted_len]; exact hN)
  constructor
  · rw [gfd_mkResp units concept fc fcnt units hne hfil]
    rw [if_neg (by simp [hne])]
  · unfold processSorted
    rw [htake]
    rw [dedupGo_length fcnt (sortDescByEnd units) [] [] (by simpa using hfcnt)]
    rw [countNewKeys_eq]
    simp only [List.toFinset_nil, Finset.sdiff_empty, List.length_nil, Nat.zero_add]
    have hperm2 : List.Perm ((sortDescByEnd units).map itemKey) (units.map itemKey) :=
      (List.perm_insertionSort endGE units).map itemKey
    rw [List.toFinset_eq_of_perm _ _ hperm2]

/-- Witness for C1 (amended): three facts over two distinct pairs, all
within `fetch_count`, give exactly `min(2, 10) = 2` records. -/
theorem claim1_witness :
    get_financial_data (mkResp [mkFact ("2022-09-30") ("2023-09-30") 100,
        mkFact ("2021-09-30") ("2022-09-30") 90, mkFact ("2022-09-30") ("2023-09-30") 100])
        ("Rev") 30 10
      = .ok (some (processSorted [mkFact ("2022-09-30") ("2023-09-30") 100,
        mkFact ("2021-09-30") ("2022-09-30") 90, mkFact ("2022-09-30") ("2023-09-30") 100] 30 10), none)
    ∧ (processSorted [mkFact ("2022-09-30") ("2023-09-30") 100,
        mkFact ("2021-09-30") ("2022-09-30") 90, mkFact ("2022-09-30") ("2023-09-30") 100] 30 10).length
      = min (([mkFact ("2022-09-30") ("2023-09-30") 100,
        mkFact ("2021-09-30") ("2022-09-30") 90,
        mkFact ("2022-09-30") ("2023-09-30") 100].map itemKey).toFinset).card 10 :=
  claim1_dedup_count
    [mkFact ("2022-09-30") ("2023-09-30") 100, mkFact ("2021-09-30") ("2022-09-30") 90,
      mkFact ("2022-09-30") ("2023-09-30") 100]
    ("Rev") 30 10 (by decide) (by decide) (by decide) (by decide)

/-- Counterexample for C1 as stated: `dupUnits` has `N = 31` facts over
`K = 5` distinct pairs, all admitted by the filter, yet with the default
parameters (`fetch_count = 30`, `final_count = 10`) the call returns 4
records, not `min(5, 10) = 5` — the 31st (oldest) fact is dropped by the
`[:fetch_count]` truncation before deduplication.  With
`final_count = 0`, two facts over one pair return 1 record, not
`min(1, 0) = 0`. -/
theorem claim1_counterexample :
    dupUnits.length = 31
    ∧ ((dupUnits.map itemKey).toFinset).card = 5
    ∧ (∀ u ∈ dupUnits, itemKeep u = .ok true)
    ∧ get_financial_data (mkResp dupUnits) ("Rev") 30 10 = .ok (some dupUnitsResult, none)
    ∧ dupUnitsResult.length ≠ min 5 10
    ∧ get_financial_data (mkResp [mkFact ("2022-09-30") ("2023-09-30") 1,
        mkFact ("2022-09-30") ("2023-09-30") 1]) ("Rev") 30 0
      = .ok (some [mkFact ("2022-09-30") ("2023-09-30") 1], none)
    ∧ (1 : Nat) ≠ min 1 0 :=
  ⟨by decide, by decide, by decide, by decide, by decide, by decide, by decide⟩

/-! ### Claim C8 (amended): invariants of every successful fetch -/

theorem processSorted_keys_nodup (t : List Json) (fc fcnt : Nat) :
    ((processSorted t fc fcnt).map itemKey).Nodup :=
  dedupGo_nodup fcnt _ [] [] (by simp) (by simp)

theorem processSorted_length_le (t : List Json) (fc fcnt : Nat) (h : 1 ≤ fcnt) :
    (processSorted t fc fcnt).length ≤ fcnt := by
  unfold processSorted
  rw [dedupGo_length fcnt _ [] [] (by simpa using h)]
  omega

theorem processSorted_sorted (t : List Json) (fc fcnt : Nat) :
    (processSorted t fc fcnt).Pairwise endGE := by
  have h1 : (sortDescByEnd t).Pairwise endGE := List.sorted_insertionSort _ _
  have h2 : List.Sublist (processSorted t fc fcnt) ((sortDescByEnd t).take fc) := by
    simpa using dedupGo_sublist fcnt ((sortDescByEnd t).take fc) [] []
  have h3 : List.Sublist ((sortDescByEnd t).take fc) (sortDescByEnd t) := List.take_sublist _ _
  exact List.Pairwise.sublist (h2.trans h3) h1

/-- Every normal success of `get_financial_data` is `processSorted` of
some filtered list. -/
theorem gfd_success_inv (resp : HttpResp) (concept : String) (fc fcnt : Nat) (recs : List Json)
    (hs : get_financial_data resp concept fc fcnt = .ok (some recs, none)) :
    ∃ t, recs = processSorted t fc fcnt := by
  unfold get_financial_data at hs
  by_cases h200 : resp.status ≠ 200
  · rw [if_pos h200] at hs
    simp at hs
  · rw [if_neg h200] at hs
    cases hb : resp.body with
    | none =>
      rw [hb] at hs
      simp at hs
    | some data =>
      rw [hb] at hs
      simp only [] at hs
      cases hu : getUnitsUSD data with
      | error e =>
        rw [hu] at hs
        simp at hs
      | ok o =>
        rw [hu] at hs
        cases o with
        | none => simp at hs
        | some units =>
          simp only [] at hs
          by_cases hf : isFalsy units
          · rw [if_pos hf] at hs
            simp at hs
          · rw [if_neg hf] at hs
            cases hi : iterElems units with
            | error e =>
              rw [hi] at hs
              simp at hs
            | ok elems =>
              rw [hi] at hs
              simp only [] at hs
              cases hft : filterTenK elems with
              | error e =>
                rw [hft] at hs
                simp at hs
              | ok tenK =>
                rw [hft] at hs
                simp only [] at hs
                by_cases hemp : tenK.isEmpty
                · rw [if_pos hemp] at hs
                  simp at hs
                · rw [if_neg hemp] at hs
                  simp only [Except.ok.injEq, Prod.mk.injEq, Option.some.injEq] at hs
                  exact ⟨tenK, hs.1.symm⟩

/-- Claim C8 (amended): every successful result of `get_financial_data`
(with `final_count ≥ 1`; the `final_count = 0` calls never stop early)
has pairwise-distinct `(start, end)` keys, at most `final_count`
records, and is ordered descending by the end-date string (Python
string order). -/
theorem claim8_success_invariants (resp : HttpResp) (concept : String) (fc fcnt : Nat)
    (recs : List Json) (hfcnt : 1 ≤ fcnt)
    (hs : get_financial_data resp concept fc fcnt = .ok (some recs, none)) :
    (recs.map itemKey).Nodup ∧ recs.length ≤ fcnt
      ∧ recs.Pairwise (fun a b => listLe (sortKey b).data (sortKey a).data = true) := by
  obtain ⟨t, rfl⟩ := gfd_success_inv resp concept fc fcnt recs hs
  exact ⟨processSorted_keys_nodup t fc fcnt, processSorted_length_le t fc fcnt hfcnt,
    processSorted_sorted t fc fcnt⟩

/-- Witness for C8 (amended): a concrete successful fetch of two facts
satisfies all three invariants. -/
theorem claim8_witness :
    (([mkFact ("2022-09-30") ("2023-09-30") 100,
        mkFact ("2021-09-30") ("2022-09-30") 90]).map itemKey).Nodup
    ∧ ([mkFact ("2022-09-30") ("2023-09-30") 100,
        mkFact ("2021-09-30") ("2022-09-30") 90]).length ≤ 10
    ∧ ([mkFact ("2022-09-30") ("2023-09-30") 100,
        mkFact ("2021-09-30") ("2022-09-30") 90]).Pairwise
        (fun a b => listLe (sortKey b).data (sortKey a).data = true) :=
  claim8_success_invariants
    (mkResp [mkFact ("2021-09-30") ("2022-09-30") 90, mkFact ("2022-09-30") ("2023-09-30") 100])
    ("Rev") 30 10
    [mkFact ("2022-09-30") ("2023-09-30") 100, mkFact ("2021-09-30") ("2022-09-30") 90]
    (by decide) (by decide)

/-- Counterexample for C8 as stated: with the unpadded end date
`2023-1-05` (accepted by `strptime`), the string sort puts it before
`2023-09-01` although it is chronologically earlier, so a successful
result is not ordered by end **date** descending; and with
`final_count = 0` the call returns 1 record, more than `final_count`. -/
theorem claim8_counterexample :
    get_financial_data (mkResp [paddedFact, unpaddedFact]) ("Rev") 30 10
      = .ok (some [unpaddedFact, paddedFact], none)
    ∧ endRata unpaddedFact < endRata paddedFact
    ∧ get_financial_data (mkResp [paddedFact]) ("Rev") 30 0
      = .ok (some [paddedFact], none)
    ∧ ¬ ([paddedFact].length ≤ 0) :=
  ⟨by decide, by decide, by decide, by decide⟩

/-! ### Claim C4 (amended): success XOR error, and where it can raise -/

/-- Evaluation of `get_financial_data` past the status and body checks. -/
theorem gfd_eval200 (resp : HttpResp) (data : Json) (concept : String) (fc fcnt : Nat)
    (h200 : resp.status = 200) (hb : resp.body = some data) :
    get_financial_data resp concept fc fcnt =
      (match getUnitsUSD data with
      | .error e => .error e
      | .ok none => .ok (none, some ("USD unit not found for " ++ concept))
      | .ok (some units) =>
        if isFalsy units then
          .ok (none, some ("No " ++ concept ++ " (USD) data found"))
        else
          match iterElems units with
          | .error e => .error e
          | .ok elems =>
            match filterTenK elems with
            | .error e => .error e
            | .ok ten_k_units =>
              if ten_k_units.isEmpty then
                .ok (none, some ("No 10-K full-year data found for " ++ concept))
              else
                .ok (some (processSorted ten_k_units fc fcnt), none)) := by
  unfold get_financial_data
  rw [if_neg (by simp [h200]), hb]

/-- Claim C4 (amended): provided any 200-status response body decodes
to JSON of the structured shape `usdShapeOk` (an object whose `units`
member, when present, is an object whose `USD` member, when present, is
falsy or a list of objects), `get_financial_data` never raises and
returns exactly one of a success payload or an error message: a
non-success status, a missing USD structure, an empty or falsy USD
list, and zero filter survivors each produce an error value. -/
theorem claim4_success_xor_error (resp : HttpResp) (concept : String) (fc fcnt : Nat)
    (h : resp.status = 200 → ∃ d, resp.body = some d ∧ usdShapeOk d = true) :
    (∃ r msg, get_financial_data resp concept fc fcnt = .ok (r, msg) ∧ (r.isSome ↔ msg = none))
    ∧ (resp.status ≠ 200 → ∃ m, get_financial_data resp concept fc fcnt = .ok (none, some m))
    ∧ (∀ d, resp.status = 200 → resp.body = some d → getUnitsUSD d = .ok none →
        ∃ m, get_financial_data resp concept fc fcnt = .ok (none, some m))
    ∧ (∀ d usd, resp.status = 200 → resp.body = some d → getUnitsUSD d = .ok (some usd) →
        isFalsy usd = true → ∃ m, get_financial_data resp concept fc fcnt = .ok (none, some m))
    ∧ (∀ d usd elems, resp.status = 200 → resp.body = some d →
        getUnitsUSD d = .ok (some usd) → isFalsy usd = false → iterElems usd = .ok elems →
        filterTenK elems = .ok [] →
        ∃ m, get_financial_data resp concept fc fcnt = .ok (none, some m)) := by
  refine ⟨?_, ?_, ?_, ?_, ?_⟩
  · by_cases h200 : resp.status = 200
    · obtain ⟨d, hb, hshape⟩ := h h200
      rw [gfd_eval200 resp d concept fc fcnt h200 hb]
      cases d with
      | obj kvs =>
        cases hu : List.lookup ("units") kvs with
        | none =>
          have hgu : getUnitsUSD (Json.obj kvs) = .ok none := by simp [getUnitsUSD, hu]
          simp only [hgu]
          exact ⟨none, some _, rfl, by simp⟩
        | some u =>
          simp only [usdShapeOk, hu] at hshape
          cases u with
          | obj kvs2 =>
            cases husd : List.lookup ("USD") kvs2 with
            | none =>
              have hgu : getUnitsUSD (Json.obj kvs) = .ok none := by
                simp [getUnitsUSD, hu, husd]
              simp only [hgu]
              exact ⟨none, some _, rfl, by simp⟩
            | some usd =>
              simp only [husd] at hshape
              have hgu : getUnitsUSD (Json.obj kvs) = .ok (some usd) := by
                simp [getUnitsUSD, hu, husd]
              simp only [hgu]
              by_cases hf : isFalsy usd = true
              · rw [if_pos hf]
                exact ⟨none, some _, rfl, by simp⟩
              · rw [Bool.or_eq_true] at hshape
                rcases hshape with hf2 | harr
                · exact absurd hf2 hf
                · cases usd with
                  | arr l =>
                    have hobj : ∀ u ∈ l, ∃ kvs3, u = Json.obj kvs3 := by
                      intro u hu2
                      have h3 := (List.all_eq_true.mp harr) u hu2
                      cases u with
                      | obj o => exact ⟨o, rfl⟩
                      | null => simp at h3
                      | bool b => simp at h3
                      | num n => simp at h3
                      | str s => simp at h3
                      | arr xs => simp at h3
                    obtain ⟨l', hl'⟩ := filterTenK_ok_of_obj l hobj
                    rw [if_neg hf]
                    have hi : iterElems (Json.arr l) = .ok l := rfl
                    simp only [hi, hl']
                    by_cases hemp : l'.isEmpty = true
                    · rw [if_pos hemp]
                      exact ⟨none, some _, rfl, by simp⟩
                    · rw [if_neg hemp]
                      exact ⟨some _, none, rfl, by simp⟩
                  | null => simp at harr
                  | bool b => simp at harr
                  | num n => simp at harr
                  | str s => simp at harr
                  | obj o => simp at harr
          | null => simp at hshape
          | bool b => simp at hshape
          | num n => simp at hshape
          | str s => simp at hshape
          | arr xs => simp at hshape
      | null => simp [usdShapeOk] at hshape
      | bool b => simp [usdShapeOk] at hshape
      | num n => simp [usdShapeOk] at hshape
      | str s => simp [usdShapeOk] at hshape
      | arr xs => simp [usdShapeOk] at hshape
    · refine ⟨none,
        some ("Request failed (status " ++ Nat.repr resp.status ++ ") for " ++ concept),
        ?_, by simp⟩
      unfold get_financial_data
      rw [if_pos h200]
  · intro hne
    refine ⟨"Request failed (status " ++ Nat.repr resp.status ++ ") for " ++ concept, ?_⟩
    unfold get_financial_data
    rw [if_pos hne]
  · intro d h200 hb hu
    rw [gfd_eval200 resp d concept fc fcnt h200 hb]
    simp only [hu]
    exact ⟨_, rfl⟩
  · intro d usd h200 hb hu hf
    rw [gfd_eval200 resp d concept fc fcnt h200 hb]
    simp only [hu]
    rw [if_pos hf]
    exact ⟨_, rfl⟩
  · intro d usd elems h200 hb hu hf hi hft
    rw [gfd_eval200 resp d concept fc fcnt h200 hb]
    simp only [hu]
    rw [if_neg (by simp [hf])]
    simp only [hi, hft]
    exact ⟨_, rfl⟩

/-- Witness for C4 (amended): a well-shaped concrete response, where
the fetch returns a success payload with no error message. -/
theorem claim4_witness :
    ∃ r msg, get_financial_data (mkResp [mkFact ("2022-09-30") ("2023-09-30") 5]) ("Rev") 30 10
      = .ok (r, msg) ∧ (r.isSome ↔ msg = none) :=
  (claim4_success_xor_error (mkResp [mkFact ("2022-09-30") ("2023-09-30") 5]) ("Rev") 30 10
    (fun _ => ⟨_, rfl, by decide⟩)).1

/-- Counterexample for C4 as stated: a 200 response whose decoded body
is the JSON array `[]` has no USD unit structure, so the claim demands
an error value; but `data["units"]` on a list raises an uncaught
`TypeError`, so `get_financial_data` raises instead of returning. -/
theorem claim4_counterexample :
    get_financial_data ⟨200, some (Json.arr [])⟩ ("Rev") 30 10 = .error .typeError := by
  decide

end SEC
